import Mathlib

/-!
Verification development for the profile lifecycle and active-profile
switching engine of the `antigravity-kit` CLI.

The definitions below are shallow embeddings of the TypeScript source:

* `src/utils/profile-manager.ts` — profile store, capture, size, auth watch
* `src/utils/symlink-manager.ts` — active-pointer symlink management
* `src/utils/sqlite-reader.ts`   — read-only session extraction
* `src/utils/antigravity-launcher.ts` — process-liveness detection
* `src/commands/auth/switch.ts`  — the switch command flow

Filesystem trees are modelled as a mutual inductive (`FsNode` / `FsEntries`),
file contents as byte lists, machine effects (process enumeration, sqlite
open, timers) as explicit oracles, and fallible operations as `Except`.
-/

set_option maxHeartbeats 1000000

mutual

/-- A node of a filesystem tree: regular file (with its bytes), directory
(with a readability flag — `readdirSync` throws on an unreadable directory —
and named children), symbolic link (carrying whether its target currently
exists, the information `existsSync` consults when it follows the link),
or one of the special node kinds (socket, FIFO, block/character device)
that the copy filter in `profile-manager.ts` skips. -/
inductive FsNode where
  | file (content : List Nat)
  | dir (readable : Bool) (children : FsEntries)
  | symlink (target : String) (targetExists : Bool)
  | socket
  | fifo
  | blockdev
  | chardev
  deriving DecidableEq, Repr

inductive FsEntries where
  | nil
  | cons (name : String) (node : FsNode) (rest : FsEntries)
  deriving DecidableEq, Repr

end

/-- `lstatSync`-style classification: the special kinds rejected by the
copy filter (`stats.isSocket() || stats.isFIFO() || stats.isBlockDevice()
|| stats.isCharacterDevice()`). -/
def isSpecial : FsNode → Bool
  | FsNode.socket => true
  | FsNode.fifo => true
  | FsNode.blockdev => true
  | FsNode.chardev => true
  | _ => false

/-- `existsSync` on a directory entry: follows symbolic links, so a dangling
link reports `false`; every other present node reports `true`. -/
def existsSyncNode : FsNode → Bool
  | FsNode.symlink _ tgtExists => tgtExists
  | _ => true

/-- Whether the node is a directory (`Dirent.isDirectory()`, which does not
follow symlinks). -/
def isDirNode : FsNode → Bool
  | FsNode.dir _ _ => true
  | _ => false

mutual

/-- Embedding of the recursive filtered copy performed with `cpSync` by
`copyDefaultProfileToStorage` / `restoreProfileToDefault`
(`profile-manager.ts`): special entries are filtered out, files, directories
and symlinks are copied; reading an unreadable directory raises, which
propagates out of the copy (the filter's own try/catch only guards `lstat`). -/
def cpNode : FsNode → Except Unit FsNode
  | FsNode.file c => Except.ok (FsNode.file c)
  | FsNode.dir r ch =>
      if r then
        match cpEntries ch with
        | Except.ok ch2 => Except.ok (FsNode.dir r ch2)
        | Except.error e => Except.error e
      else Except.error ()
  | FsNode.symlink t e => Except.ok (FsNode.symlink t e)
  | FsNode.socket => Except.ok FsNode.socket
  | FsNode.fifo => Except.ok FsNode.fifo
  | FsNode.blockdev => Except.ok FsNode.blockdev
  | FsNode.chardev => Except.ok FsNode.chardev

def cpEntries : FsEntries → Except Unit FsEntries
  | FsEntries.nil => Except.ok FsEntries.nil
  | FsEntries.cons n c rest =>
      if isSpecial c then cpEntries rest
      else
        match cpNode c with
        | Except.ok c2 =>
            match cpEntries rest with
            | Except.ok rest2 => Except.ok (FsEntries.cons n c2 rest2)
            | Except.error e => Except.error e
        | Except.error e => Except.error e

end

mutual

/-- Modelled from the spec: "minus any socket/FIFO/device entries present in
`dir`" — the tree with every special entry removed, everything else kept. -/
def stripSpecialsN : FsNode → FsNode
  | FsNode.file c => FsNode.file c
  | FsNode.dir r ch => FsNode.dir r (stripSpecialsE ch)
  | FsNode.symlink t e => FsNode.symlink t e
  | FsNode.socket => FsNode.socket
  | FsNode.fifo => FsNode.fifo
  | FsNode.blockdev => FsNode.blockdev
  | FsNode.chardev => FsNode.chardev

def stripSpecialsE : FsEntries → FsEntries
  | FsEntries.nil => FsEntries.nil
  | FsEntries.cons n c rest =>
      if isSpecial c then stripSpecialsE rest
      else FsEntries.cons n (stripSpecialsN c) (stripSpecialsE rest)

end

mutual

/-- Every directory in the tree is readable. -/
def allReadableN : FsNode → Bool
  | FsNode.dir r ch => r && allReadableE ch
  | _ => true

def allReadableE : FsEntries → Bool
  | FsEntries.nil => true
  | FsEntries.cons _ c rest => allReadableN c && allReadableE rest

end

/-- `CLEANUP_DIRECTORIES` from `types/auth.ts`. -/
def CLEANUP_DIRECTORIES : List String :=
  ["Cache", "CachedData", "logs", "Crashpad", "GPUCache", "blob_storage",
   "Code Cache", "DawnCache", "Service Worker"]

/-- Top-level purge of `cleanupProfile` (`profile-manager.ts`): for each name
in `CLEANUP_DIRECTORIES`, if `existsSync` reports the child present it is
removed with `rmSync({recursive, force})`; a child that is a dangling symlink
reports absent and is kept. -/
def cleanupEntries : FsEntries → FsEntries
  | FsEntries.nil => FsEntries.nil
  | FsEntries.cons n c rest =>
      if CLEANUP_DIRECTORIES.contains n && existsSyncNode c then
        cleanupEntries rest
      else FsEntries.cons n c (cleanupEntries rest)

/-- `cleanupProfile(profilePath)`: removes the transient top-level
subdirectories from a captured profile. -/
def cleanupProfile : FsNode → FsNode
  | FsNode.dir r ch => FsNode.dir r (cleanupEntries ch)
  | t => t

/-- Modelled from the spec: "minus purged transient subdirectories" — remove
the top-level children that are directories bearing a transient name. -/
def purgeTransientSpecE : FsEntries → FsEntries
  | FsEntries.nil => FsEntries.nil
  | FsEntries.cons n c rest =>
      if CLEANUP_DIRECTORIES.contains n && isDirNode c then
        purgeTransientSpecE rest
      else FsEntries.cons n c (purgeTransientSpecE rest)

/-- Spec-side expected capture result on a directory tree. -/
def purgeTransientSpec : FsNode → FsNode
  | FsNode.dir r ch => FsNode.dir r (purgeTransientSpecE ch)
  | t => t

/-- `email.replace(/[^a-zA-Z0-9@._-]/g, "_")` — the identity sanitizer used
by `copyDefaultProfileToStorage` and `finalizeProfile`. -/
def sanitizeEmail (email : String) : String :=
  String.mk (email.data.map (fun c =>
    if c.isAlphanum || c = '@' || c = '.' || c = '_' || c = '-' then c
    else '_'))

/-- `PENDING_SESSION_NAME` from `types/auth.ts`. -/
def PENDING_SESSION_NAME : String := "pending_session"

/-- The immediate children of the profiles directory: the store state a
profile-manager call sees. -/
abbrev Store := FsEntries

/-- The `if (existsSync(profilePath)) rmSync(profilePath, {recursive, force})`
step of `copyDefaultProfileToStorage`: children with the given name whose
`existsSync` is true are removed; a dangling symlink of that name survives. -/
def rmIfExists (store : Store) (name : String) : Store :=
  match store with
  | FsEntries.nil => FsEntries.nil
  | FsEntries.cons n c rest =>
      if n = name && existsSyncNode c then rmIfExists rest name
      else FsEntries.cons n c (rmIfExists rest name)

/-- Whether any child with the given name remains in the store. -/
def hasChild (store : Store) (name : String) : Bool :=
  match store with
  | FsEntries.nil => false
  | FsEntries.cons n _ rest => n = name || hasChild rest name

/-- Append a freshly created directory entry at the end of the listing. -/
def appendEntry (store : Store) (name : String) (node : FsNode) : Store :=
  match store with
  | FsEntries.nil => FsEntries.cons name node FsEntries.nil
  | FsEntries.cons n c rest => FsEntries.cons n c (appendEntry rest name node)

/-- `copyDefaultProfileToStorage(email)` (`profile-manager.ts`): sanitizes the
email, removes any existing profile directory of that name, copies the default
data directory with the special-file filter, then purges transient caches.
A leftover entry of the same name that `existsSync` missed (dangling symlink)
makes the copy's destination creation raise (`EEXIST`); an unreadable source
directory makes the copy itself raise. -/
def copyDefaultProfileToStorage (email : String) (store : Store)
    (defaultDataDir : FsNode) : Except Unit Store :=
  let safeEmail := sanitizeEmail email
  let store1 := rmIfExists store safeEmail
  if hasChild store1 safeEmail then Except.error ()
  else
    match cpNode defaultDataDir with
    | Except.ok copied =>
        Except.ok (appendEntry store1 safeEmail (cleanupProfile copied))
    | Except.error e => Except.error e

/-- The fields of a listed profile that the lookup claims concern. In the
source `listProfiles` also derives `id`, `name`, and the filesystem
timestamps; `email` and `profilePath` are both the directory name (the
`profilePath` is that name joined under the fixed profiles root, which the
model elides). -/
structure ProfileM where
  email : String
  profilePath : String
  deriving DecidableEq, Repr

/-- `listProfiles()` (`profile-manager.ts`): every immediate child of the
profiles directory that is a directory and is not the reserved pending name
becomes a profile whose email is the directory name. -/
def listProfiles (store : Store) : List ProfileM :=
  match store with
  | FsEntries.nil => []
  | FsEntries.cons n c rest =>
      if isDirNode c && !(n = PENDING_SESSION_NAME) then
        { email := n, profilePath := n } :: listProfiles rest
      else listProfiles rest

/-- `getProfileByEmail(email)`: first listed profile with exactly that
email, or null. -/
def getProfileByEmail (email : String) (store : Store) : Option ProfileM :=
  (listProfiles store).find? (fun p => p.email = email)

/-- The tree stored under a given profile name (first match in the listing
order). -/
def lookupEntry (store : Store) (name : String) : Option FsNode :=
  match store with
  | FsEntries.nil => none
  | FsEntries.cons n c rest =>
      if n = name then some c else lookupEntry rest name

mutual

/-- The recursive walk of `getProfileSize` (`profile-manager.ts`) with its
mutable `totalSize` made an explicit accumulator: `calculateSize` reads a
directory inside a try/catch (an unreadable directory contributes nothing),
recurses into child directories, adds `statSync(path).size` for child regular
files, and skips every other entry kind; called on a non-directory the
initial `readdirSync` throws and is caught, leaving the total unchanged. -/
def calcNode (acc : Nat) : FsNode → Nat
  | FsNode.dir r ch => if r then calcEntries acc ch else acc
  | _ => acc

def calcEntries (acc : Nat) : FsEntries → Nat
  | FsEntries.nil => acc
  | FsEntries.cons _ c rest =>
      match c with
      | FsNode.dir r ch => calcEntries (calcNode acc (FsNode.dir r ch)) rest
      | FsNode.file bytes => calcEntries (acc + bytes.length) rest
      | _ => calcEntries acc rest

end

/-- `getProfileSize(profilePath)`: total byte size of the profile tree. -/
def getProfileSize (t : FsNode) : Nat := calcNode 0 t

mutual

/-- Modelled from the spec: "the summed size of all readable entries" — the
sum of the byte sizes of the regular files reachable through readable
directories, every unreadable directory's subtree skipped. -/
def readableFilesTotalN : FsNode → Nat
  | FsNode.dir r ch => if r then readableFilesTotalE ch else 0
  | _ => 0

def readableFilesTotalE : FsEntries → Nat
  | FsEntries.nil => 0
  | FsEntries.cons _ c rest =>
      (match c with
       | FsNode.dir r ch => readableFilesTotalN (FsNode.dir r ch)
       | FsNode.file bytes => bytes.length
       | _ => 0) + readableFilesTotalE rest

end

mutual

/-- The tree contains at least one unreadable directory. -/
def hasUnreadableN : FsNode → Bool
  | FsNode.dir r ch => !r || hasUnreadableE ch
  | _ => false

def hasUnreadableE : FsEntries → Bool
  | FsEntries.nil => false
  | FsEntries.cons _ c rest => hasUnreadableN c || hasUnreadableE rest

end

mutual

/-- Erase every symbolic-link entry from the tree, leaving all other entries
untouched. -/
def stripSymlinksN : FsNode → FsNode
  | FsNode.dir r ch => FsNode.dir r (stripSymlinksE ch)
  | t => t

def stripSymlinksE : FsEntries → FsEntries
  | FsEntries.nil => FsEntries.nil
  | FsEntries.cons n c rest =>
      match c with
      | FsNode.symlink _ _ => stripSymlinksE rest
      | _ => FsEntries.cons n (stripSymlinksN c) (stripSymlinksE rest)

end

/-- What occupies the active-pointer location (`~/.antigravity-kit/active`):
nothing, a regular file, a directory, or a symlink with its recorded target. -/
inductive PtrEntry where
  | empty
  | file
  | dir
  | symlink (target : String)
  deriving DecidableEq, Repr

/-- The state `symlink-manager.ts` operates on: the entry at the pointer
location, plus which target paths currently exist on disk (`existsSync`
follows a symlink, so it consults the target's existence). -/
structure SymWorld where
  entry : PtrEntry
  pathExists : String → Bool

/-- `existsSync(symlinkPath)`: false when nothing is there, true for a file
or directory, and for a symlink the existence of its target (a dangling link
reports absent). -/
def existsSyncPtr (w : SymWorld) : Bool :=
  match w.entry with
  | PtrEntry.empty => false
  | PtrEntry.file => true
  | PtrEntry.dir => true
  | PtrEntry.symlink t => w.pathExists t

/-- `setActiveProfile(profilePath)` (`symlink-manager.ts`): if `existsSync`
reports something at the pointer location it is removed with
`rmSync({recursive, force})`, then `symlinkSync(profilePath, symlinkPath)`
creates the new link. When the location holds a dangling symlink,
`existsSync` reports absent, the removal is skipped, and `symlinkSync`
raises `EEXIST`; the catch logs and returns false with the state unchanged. -/
def setActiveProfile (profilePath : String) (w : SymWorld) : SymWorld × Bool :=
  if existsSyncPtr w then
    ({ w with entry := PtrEntry.symlink profilePath }, true)
  else
    match w.entry with
    | PtrEntry.empty => ({ w with entry := PtrEntry.symlink profilePath }, true)
    | _ => (w, false)

/-- `getActiveProfilePath()` (`symlink-manager.ts`): null when `existsSync`
reports nothing (including a dangling symlink), null when `lstatSync` says
the entry is not a symbolic link, otherwise the `readlinkSync` target; every
error is caught and becomes null. -/
def getActiveProfilePath (w : SymWorld) : Option String :=
  if existsSyncPtr w then
    match w.entry with
    | PtrEntry.symlink t => some t
    | _ => none
  else none

/-- An auth session extracted from the state store (`AuthSessionData` in
`types/auth.ts`). -/
structure AuthSessionData where
  email : String
  accountId : String
  sessionId : String
  name : Option String
  deriving DecidableEq, Repr

/-- The new-login predicate inside `watchForAuth` (`profile-manager.ts`):
`!initialAuthState || session.email !== initialAuthState.email`. -/
def isNewLogin (baseline : Option AuthSessionData) (s : AuthSessionData) : Bool :=
  match baseline with
  | none => true
  | some b => !(s.email = b.email)

/-- One `checkForAuth()` evaluation (`profile-manager.ts`): nothing when the
state database does not exist, otherwise the first session read, accepted
only when it is a new login relative to the baseline. -/
def checkForAuth (baseline : Option AuthSessionData) (dbExists : Bool)
    (sess : Option AuthSessionData) : Option AuthSessionData :=
  if dbExists then
    match sess with
    | some s => if isNewLogin baseline s then some s else none
    | none => none
  else none

/-- The baseline captured on entry to `watchForAuth`: the first session in
the store, but only when the database file already exists. -/
def watchBaseline (dbExistsAtStart : Bool)
    (initialSession : Option AuthSessionData) : Option AuthSessionData :=
  if dbExistsAtStart then initialSession else none

/-- `watchForAuth(timeoutMs)` (`profile-manager.ts`), its interval poll and
file-watch trigger serialized into the list of `checkForAuth` observations
made before the timeout fires (each observation: does the database exist,
and what `getFirstAuthSession` returns). The promise resolves with the first
observation that passes `checkForAuth`; if none passes before the timeout,
it rejects with the timeout error. -/
def watchForAuth (baseline : Option AuthSessionData) :
    List (Bool × Option AuthSessionData) → Except String AuthSessionData
  | [] => Except.error "Authentication timeout - no login detected"
  | (dbE, s) :: rest =>
      match checkForAuth baseline dbE s with
      | some sess => Except.ok sess
      | none => watchForAuth baseline rest

/-- Modelled from the spec: "presence of a session distinct from the baseline
captured at watch-start (different identity, or no prior baseline)". -/
def specQualifies (baseline : Option AuthSessionData) (s : AuthSessionData) : Bool :=
  match baseline with
  | none => true
  | some b => !(s.email = b.email)

/-- Modelled from the spec: the first observation before the timeout in which
the readable store reports a qualifying session. -/
def specFirstDetection (baseline : Option AuthSessionData)
    (obs : List (Bool × Option AuthSessionData)) : Option AuthSessionData :=
  obs.findSome? (fun p =>
    match p with
    | (true, some s) => if specQualifies baseline s then some s else none
    | _ => none)

/-- A parsed JSON value, as produced by a successful `JSON.parse` of a state
store row's value. -/
inductive Json where
  | null
  | bool (b : Bool)
  | num (n : Int)
  | str (s : String)
  | arr (items : List Json)
  | obj (fields : List (String × Json))

/-- Field access `parsed.field` on a JSON value: defined only on objects. -/
def jsonField (j : Json) (k : String) : Option Json :=
  match j with
  | Json.obj fields => fields.lookup k
  | _ => none

/-- A field that is truthy as JavaScript sees a string: present, a string,
and non-empty. -/
def truthyStrField (j : Json) (k : String) : Option String :=
  match jsonField j k with
  | some (Json.str s) => if s = "" then none else some s
  | _ => none

/-- `parseAntigravityAuth(value)` (`sqlite-reader.ts`): `JSON.parse` of the
row value (a parse failure is caught and yields null, modelled by the `none`
argument), then a session is built when `parsed.email` is truthy, with
`accountId` the email, `sessionId` the first 20 characters of a truthy
`apiKey` or the literal `"antigravity"`, and the optional name. -/
def parseAntigravityAuth (v : Option Json) : Option AuthSessionData :=
  match v with
  | none => none
  | some parsed =>
      match truthyStrField parsed "email" with
      | some e =>
          some { email := e
                 accountId := e
                 sessionId :=
                   match truthyStrField parsed "apiKey" with
                   | some k => if k.take 20 = "" then "antigravity" else k.take 20
                   | none => "antigravity"
                 name := truthyStrField parsed "name" }
      | none => none

/-- `extractSessionData(item)` (`sqlite-reader.ts`): requires an object with
a truthy `account.label` and `account.id`; `sessionId` is the item's `id` or
`"unknown"`. -/
def extractSessionData (item : Json) : Option AuthSessionData :=
  match jsonField item "account" with
  | some account =>
      match truthyStrField account "label", truthyStrField account "id" with
      | some label, some accId =>
          some { email := label
                 accountId := accId
                 sessionId :=
                   match truthyStrField item "id" with
                   | some i => i
                   | none => "unknown"
                 name := none }
      | _, _ => none
  | none => none

/-- `parseAuthSession(value)` (`sqlite-reader.ts`): a caught parse failure
yields null; an array collects `extractSessionData` over its items, a
non-null object yields at most one; an empty collection yields null. -/
def parseAuthSession (v : Option Json) : Option (List AuthSessionData) :=
  match v with
  | none => none
  | some (Json.arr items) =>
      let sessions := items.filterMap extractSessionData
      if sessions.isEmpty then none else some sessions
  | some (Json.obj fields) =>
      match extractSessionData (Json.obj fields) with
      | some s => some [s]
      | none => none
  | some _ => none

/-- SQL `LIKE '%pat%'`: substring containment. -/
def containsSub (s pat : String) : Bool := !((s.splitOn pat).length = 1)

/-- The key filter of the `readAuthSessions` query (`sqlite-reader.ts`). -/
def keyMatches (k : String) : Bool :=
  k = "antigravityAuthStatus"
    || containsSub k "authentication.sessions"
    || containsSub k "google.auth"
    || containsSub k "auth.sessions"

/-- The outcome of opening the state store read-only: the file is missing,
the database is locked or otherwise unopenable, or it opens and yields its
`ItemTable` rows (each value pre-parsed, `none` marking malformed JSON). -/
inductive DbOpen where
  | missing
  | locked
  | opened (rows : List (String × Option Json))

/-- `readAuthSessions(dbPath)` (`sqlite-reader.ts`): the whole body runs in
a try/catch whose handler returns the empty list, so a missing or locked
store yields no sessions; an opened store's matching rows are folded in
order, the dedicated `antigravityAuthStatus` key through
`parseAntigravityAuth` and every other matching key through
`parseAuthSession`. -/
def readAuthSessions (db : DbOpen) : List AuthSessionData :=
  match db with
  | DbOpen.missing => []
  | DbOpen.locked => []
  | DbOpen.opened rows =>
      (rows.filter (fun r => keyMatches r.1)).foldl
        (fun acc r =>
          if r.1 = "antigravityAuthStatus" then
            match parseAntigravityAuth r.2 with
            | some a => acc ++ [a]
            | none => acc
          else
            match parseAuthSession r.2 with
            | some l => acc ++ l
            | none => acc)
        []

/-- The platforms `antigravity-launcher.ts` distinguishes. -/
inductive OsPlatform where
  | darwin
  | linux
  | win32
  | other
  deriving DecidableEq, Repr

/-- An `execAsync` oracle: for each command line, either the captured stdout
or a failure (non-zero exit, permission denied, tool missing). -/
def ExecOracle : Type := String → Except Unit String

/-- `isAntigravityRunning()` (`antigravity-launcher.ts`): per-platform process
enumeration inside a try/catch — `pgrep` output must be non-empty after
trimming on darwin/linux, `tasklist` output must mention the image name on
win32, unknown platforms report false — and any enumeration failure is
caught and reported as false. -/
def isAntigravityRunning (os : OsPlatform) (ex : ExecOracle) : Bool :=
  match
    (match os with
     | OsPlatform.darwin =>
         match ex "pgrep -li \"Antigravity\"" with
         | Except.ok out => Except.ok (!(out.trim.length = 0))
         | Except.error e => Except.error e
     | OsPlatform.linux =>
         match ex "pgrep -x antigravity" with
         | Except.ok out => Except.ok (!(out.trim.length = 0))
         | Except.error e => Except.error e
     | OsPlatform.win32 =>
         match ex "tasklist /FI \"IMAGENAME eq antigravity.exe\" /NH" with
         | Except.ok out => Except.ok (containsSub out.toLower "antigravity.exe")
         | Except.error e => Except.error e
     | OsPlatform.other => Except.ok false) with
  | Except.ok b => b
  | Except.error _ => false

/-- The possible outcomes of `restoreProfileToDefault(profilePath)`
(`profile-manager.ts`): success, `false` because the profile path does not
exist, or the thrown `AntigravityRunningError` when removing the live data
directory fails with `ENOTEMPTY`/`EBUSY`/`EPERM`. -/
inductive RestoreOutcome where
  | ok
  | notFound
  | busy
  deriving DecidableEq, Repr

/-- The observable calls the switch command makes while it runs. -/
inductive SwitchEvent where
  | checkRunning (result : Bool)
  | quitCmd (ok : Bool)
  | setActivePtr (path : String) (ok : Bool)
  | restoreCall (path : String) (outcome : RestoreOutcome)
  deriving DecidableEq, Repr

/-- The external world the switch command consults: successive
`isAntigravityRunning()` answers (indexed by call order), the user's answer
to the close-confirmation prompt, `quitAntigravity()`'s reported success,
`setActiveProfile`'s reported success, and `restoreProfileToDefault`'s
outcome. -/
structure SwitchOracle where
  running : Nat → Bool
  confirmClose : Bool
  quitOk : Bool
  setActiveOk : Bool
  restoreOut : RestoreOutcome

/-- The state the switch claims guard: which profile path the ActivePointer
records, and which profile's contents the live data directory holds. -/
structure SwitchWorld where
  pointer : Option String
  live : Option String
  deriving DecidableEq, Repr

/-- How the switch command terminates. -/
inductive SwitchResult where
  | switched
  | cancelledClose
  | stillRunningExit
  | setActiveFailed
  | restoreNotFound
  | restoreBusyExit
  deriving DecidableEq, Repr

/-- The quit-and-reverify loop of `switch.ts` (lines 133–142): up to
`maxAttempts` iterations of sleep-then-recheck, breaking as soon as a check
reports not running. Arguments: the running oracle, the index of the next
liveness check, and the remaining attempts; returns the next check index
after the loop and the checks performed. -/
def quitLoop (running : Nat → Bool) : Nat → Nat → Nat × List SwitchEvent
  | i, 0 => (i, [])
  | i, fuel + 1 =>
      let r := running i
      if r then
        let res := quitLoop running (i + 1) fuel
        (res.1, SwitchEvent.checkRunning r :: res.2)
      else (i + 1, [SwitchEvent.checkRunning r])

/-- `maxAttempts` in `switch.ts`. -/
def maxAttempts : Nat := 30

/-- How the process guard of `switch.ts` (lines 110–152) ends. -/
inductive GuardResult where
  | proceed
  | cancelled
  | stillBusy
  deriving DecidableEq, Repr

/-- The process-guard section of the switch command: the initial
`isAntigravityRunning()` check; if running, the user confirmation, the
`quitAntigravity()` call, the quit-and-reverify loop, and the final
re-check whose failure aborts the switch. -/
def guardStep (o : SwitchOracle) : GuardResult × List SwitchEvent :=
  let r0 := o.running 0
  if r0 then
    if o.confirmClose then
      let lp := quitLoop o.running 1 maxAttempts
      let rFinal := o.running lp.1
      ((if rFinal then GuardResult.stillBusy else GuardResult.proceed),
       SwitchEvent.checkRunning r0 :: SwitchEvent.quitCmd o.quitOk ::
         (lp.2 ++ [SwitchEvent.checkRunning rFinal]))
    else (GuardResult.cancelled, [SwitchEvent.checkRunning r0])
  else (GuardResult.proceed, [SwitchEvent.checkRunning r0])

/-- The tail of the switch command after the guard (lines 154–174):
`setActiveProfile(selectedPath)` first — on success the pointer now records
the selected path — then `restoreProfileToDefault(selectedPath)`, which on
success replaces the live data directory's contents. -/
def switchAfterGuard (o : SwitchOracle) (w : SwitchWorld) (path : String) :
    SwitchResult × SwitchWorld × List SwitchEvent :=
  if o.setActiveOk then
    let w1 : SwitchWorld := { w with pointer := some path }
    let evs := [SwitchEvent.setActivePtr path true,
                SwitchEvent.restoreCall path o.restoreOut]
    match o.restoreOut with
    | RestoreOutcome.ok => (SwitchResult.switched, { w1 with live := some path }, evs)
    | RestoreOutcome.notFound => (SwitchResult.restoreNotFound, w1, evs)
    | RestoreOutcome.busy => (SwitchResult.restoreBusyExit, w1, evs)
  else (SwitchResult.setActiveFailed, w, [SwitchEvent.setActivePtr path false])

/-- The switch command's `run` from the liveness check onward (`switch.ts`
lines 110–174), producing its result, the final pointer/live state, and the
trace of observable calls. -/
def runSwitchTail (o : SwitchOracle) (w : SwitchWorld) (path : String) :
    SwitchResult × SwitchWorld × List SwitchEvent :=
  match guardStep o with
  | (GuardResult.proceed, evs) =>
      let t := switchAfterGuard o w path
      (t.1, t.2.1, evs ++ t.2.2)
  | (GuardResult.cancelled, evs) => (SwitchResult.cancelledClose, w, evs)
  | (GuardResult.stillBusy, evs) => (SwitchResult.stillRunningExit, w, evs)

/-- Scan of a trace checking that every pointer update is preceded by a
successful restore of the same path (the ordering C1 asserts); the first
argument accumulates the paths already restored successfully. -/
def setAfterRestoreAux (restored : List String) : List SwitchEvent → Bool
  | [] => true
  | SwitchEvent.setActivePtr p _ :: rest =>
      restored.contains p && setAfterRestoreAux restored rest
  | SwitchEvent.restoreCall p RestoreOutcome.ok :: rest =>
      setAfterRestoreAux (p :: restored) rest
  | _ :: rest => setAfterRestoreAux restored rest

/-- Every pointer update in the trace happens after a successful
live-directory restore of that path. -/
def pointerSetOnlyAfterRestore (tr : List SwitchEvent) : Bool :=
  setAfterRestoreAux [] tr

/-- Scan of a trace checking that every restore call is preceded by a
successful pointer update to the same path; the first argument accumulates
the paths already set. -/
def restoreAfterSetAux (setPaths : List String) : List SwitchEvent → Bool
  | [] => true
  | SwitchEvent.restoreCall p _ :: rest =>
      setPaths.contains p && restoreAfterSetAux setPaths rest
  | SwitchEvent.setActivePtr p true :: rest =>
      restoreAfterSetAux (p :: setPaths) rest
  | _ :: rest => restoreAfterSetAux setPaths rest

/-- Every live-directory restore in the trace happens after a successful
pointer update to that path. -/
def restoreOnlyAfterSet (tr : List SwitchEvent) : Bool :=
  restoreAfterSetAux [] tr

/-- An event that neither updates the pointer nor restores the live
directory. -/
def isPassiveEvent : SwitchEvent → Bool
  | SwitchEvent.checkRunning _ => true
  | SwitchEvent.quitCmd _ => true
  | _ => false

/-- The number of `isAntigravityRunning()` calls recorded in a trace. -/
def countChecks (tr : List SwitchEvent) : Nat :=
  tr.countP (fun e =>
    match e with
    | SwitchEvent.checkRunning _ => true
    | _ => false)

/-- Every top-level child bearing a transient (`CLEANUP_DIRECTORIES`) name
is a directory. -/
def transientTopOk : FsEntries → Bool
  | FsEntries.nil => true
  | FsEntries.cons n c rest =>
      (!(CLEANUP_DIRECTORIES.contains n) || isDirNode c) && transientTopOk rest

/-- A pointer location holding a symlink whose target no longer exists,
while profile path "P" does exist. -/
def symWorldDangling : SymWorld :=
  { entry := PtrEntry.symlink "dead", pathExists := fun s => s == "P" }

/-- A pointer location with nothing at it, every profile path existing. -/
def symWorldVacant : SymWorld :=
  { entry := PtrEntry.empty, pathExists := fun _ => true }

/-- A switch-time oracle in which the application is never running and every
subsequent step succeeds. -/
def oracleNotRunning : SwitchOracle :=
  { running := fun _ => false, confirmClose := true, quitOk := true,
    setActiveOk := true, restoreOut := RestoreOutcome.ok }

/-- A switch-time oracle in which the application reports running at every
liveness check and the user confirms closing it. -/
def oracleAllRunning : SwitchOracle :=
  { running := fun _ => true, confirmClose := true, quitOk := true,
    setActiveOk := true, restoreOut := RestoreOutcome.ok }

/-- Initial pointer/live state for the switch scenarios. -/
def switchWorld0 : SwitchWorld := { pointer := none, live := none }

/-- A baseline session for the watcher scenarios. -/
def sessA : AuthSessionData :=
  { email := "a@x.com", accountId := "a@x.com", sessionId := "1", name := none }

/-- A distinct freshly signed-in session. -/
def sessB : AuthSessionData :=
  { email := "b@x.com", accountId := "b@x.com", sessionId := "2", name := none }

/-- A tree with one readable file (3 bytes) and one unreadable subdirectory
hiding a 2-byte file. -/
def treeUnreadable : FsNode :=
  FsNode.dir true
    (FsEntries.cons "ok" (FsNode.file [1, 2, 3])
      (FsEntries.cons "bad"
        (FsNode.dir false (FsEntries.cons "hidden" (FsNode.file [9, 9]) FsEntries.nil))
        FsEntries.nil))

/-- A tree holding a 1-byte file plus a symlink entry. -/
def treeWithLink : FsNode :=
  FsNode.dir true
    (FsEntries.cons "lnk" (FsNode.symlink "elsewhere" true)
      (FsEntries.cons "f" (FsNode.file [7]) FsEntries.nil))

/-- The same tree without the symlink entry. -/
def treeNoLink : FsNode :=
  FsNode.dir true (FsEntries.cons "f" (FsNode.file [7]) FsEntries.nil)

mutual

theorem calcNode_eq : ∀ (acc : Nat) (t : FsNode),
    calcNode acc t = acc + readableFilesTotalN t
  | acc, FsNode.file c => by simp [calcNode, readableFilesTotalN]
  | acc, FsNode.dir r ch => by
      cases r with
      | true => simp [calcNode, readableFilesTotalN, calcEntries_eq acc ch]
      | false => simp [calcNode, readableFilesTotalN]
  | acc, FsNode.symlink t e => by simp [calcNode, readableFilesTotalN]
  | acc, FsNode.socket => by simp [calcNode, readableFilesTotalN]
  | acc, FsNode.fifo => by simp [calcNode, readableFilesTotalN]
  | acc, FsNode.blockdev => by simp [calcNode, readableFilesTotalN]
  | acc, FsNode.chardev => by simp [calcNode, readableFilesTotalN]

theorem calcEntries_eq : ∀ (acc : Nat) (e : FsEntries),
    calcEntries acc e = acc + readableFilesTotalE e
  | acc, FsEntries.nil => by simp [calcEntries, readableFilesTotalE]
  | acc, FsEntries.cons n c rest => by
      cases c with
      | dir r ch =>
          rw [calcEntries, calcEntries_eq _ rest, calcNode_eq acc (FsNode.dir r ch),
            readableFilesTotalE]
          omega
      | file bytes =>
          rw [calcEntries, calcEntries_eq _ rest, readableFilesTotalE]
          omega
      | symlink t e =>
          simp [calcEntries, readableFilesTotalE, calcEntries_eq _ rest]
      | socket =>
          simp [calcEntries, readableFilesTotalE, calcEntries_eq _ rest]
      | fifo =>
          simp [calcEntries, readableFilesTotalE, calcEntries_eq _ rest]
      | blockdev =>
          simp [calcEntries, readableFilesTotalE, calcEntries_eq _ rest]
      | chardev =>
          simp [calcEntries, readableFilesTotalE, calcEntries_eq _ rest]

end

mutual

theorem readableTotal_strip : ∀ (t : FsNode),
    readableFilesTotalN (stripSymlinksN t) = readableFilesTotalN t
  | FsNode.file c => rfl
  | FsNode.dir r ch => by
      cases r with
      | true => simp [stripSymlinksN, readableFilesTotalN, readableTotalE_strip ch]
      | false => simp [stripSymlinksN, readableFilesTotalN]
  | FsNode.symlink t e => rfl
  | FsNode.socket => rfl
  | FsNode.fifo => rfl
  | FsNode.blockdev => rfl
  | FsNode.chardev => rfl

theorem readableTotalE_strip : ∀ (e : FsEntries),
    readableFilesTotalE (stripSymlinksE e) = readableFilesTotalE e
  | FsEntries.nil => rfl
  | FsEntries.cons n c rest => by
      cases c with
      | dir r ch =>
          cases r with
          | true =>
              simp [stripSymlinksE, stripSymlinksN, readableFilesTotalE,
                readableFilesTotalN, readableTotalE_strip rest, readableTotalE_strip ch]
          | false =>
              simp [stripSymlinksE, stripSymlinksN, readableFilesTotalE,
                readableFilesTotalN, readableTotalE_strip rest]
      | file bytes =>
          simp [stripSymlinksE, stripSymlinksN, readableFilesTotalE,
            readableTotalE_strip rest]
      | symlink t e =>
          simp [stripSymlinksE, readableFilesTotalE, readableTotalE_strip rest]
      | socket =>
          simp [stripSymlinksE, stripSymlinksN, readableFilesTotalE,
            readableTotalE_strip rest]
      | fifo =>
          simp [stripSymlinksE, stripSymlinksN, readableFilesTotalE,
            readableTotalE_strip rest]
      | blockdev =>
          simp [stripSymlinksE, stripSymlinksN, readableFilesTotalE,
            readableTotalE_strip rest]
      | chardev =>
          simp [stripSymlinksE, stripSymlinksN, readableFilesTotalE,
            readableTotalE_strip rest]

end

mutual

theorem cpNode_ok : ∀ (t : FsNode), allReadableN t = true →
    cpNode t = Except.ok (stripSpecialsN t)
  | FsNode.file c, _ => rfl
  | FsNode.dir r ch, h => by
      have hr : r = true := by
        simp [allReadableN] at h
        exact h.1
      have hch : allReadableE ch = true := by
        simp [allReadableN] at h
        exact h.2
      simp [cpNode, stripSpecialsN, hr, cpEntries_ok ch hch]
  | FsNode.symlink t e, _ => rfl
  | FsNode.socket, _ => rfl
  | FsNode.fifo, _ => rfl
  | FsNode.blockdev, _ => rfl
  | FsNode.chardev, _ => rfl

theorem cpEntries_ok : ∀ (e : FsEntries), allReadableE e = true →
    cpEntries e = Except.ok (stripSpecialsE e)
  | FsEntries.nil, _ => rfl
  | FsEntries.cons n c rest, h => by
      have hc : allReadableN c = true := by
        simp [allReadableE] at h
        exact h.1
      have hrest : allReadableE rest = true := by
        simp [allReadableE] at h
        exact h.2
      by_cases hs : isSpecial c = true
      · simp [cpEntries, stripSpecialsE, hs, cpEntries_ok rest hrest]
      · simp [cpEntries, stripSpecialsE, hs, cpNode_ok c hc, cpEntries_ok rest hrest]

end

/-- When every transient-named top-level child is a directory, the source's
`existsSync`-guarded purge agrees with the spec's "minus purged transient
subdirectories" on the copied (special-free) listing. -/
theorem cleanup_purge : ∀ (ch : FsEntries), transientTopOk ch = true →
    cleanupEntries (stripSpecialsE ch) = purgeTransientSpecE (stripSpecialsE ch)
  | FsEntries.nil, _ => rfl
  | FsEntries.cons n c rest, h => by
      have hn : (!(CLEANUP_DIRECTORIES.contains n) || isDirNode c) = true := by
        simp [transientTopOk] at h
        rcases h.1 with h1 | h1 <;> simp [h1]
      have hrest : transientTopOk rest = true := by
        simp [transientTopOk] at h
        exact h.2
      by_cases hs : isSpecial c = true
      · simp [stripSpecialsE, hs, cleanup_purge rest hrest]
      · by_cases hcn : CLEANUP_DIRECTORIES.contains n = true
        · have hd : isDirNode c = true := by
            rcases Bool.or_eq_true_iff.mp hn with h1 | h1
            · rw [Bool.not_eq_true'] at h1
              rw [h1] at hcn
              cases hcn
            · exact h1
          cases c with
          | dir r ch2 =>
              simp [stripSpecialsE, hs, cleanupEntries, purgeTransientSpecE, hcn,
                stripSpecialsN, existsSyncNode, isDirNode, cleanup_purge rest hrest]
          | file bytes => simp [isDirNode] at hd
          | symlink t e => simp [isDirNode] at hd
          | socket => simp [isDirNode] at hd
          | fifo => simp [isDirNode] at hd
          | blockdev => simp [isDirNode] at hd
          | chardev => simp [isDirNode] at hd
        · have hmem : ¬(n ∈ CLEANUP_DIRECTORIES) := by simpa using hcn
          simp [stripSpecialsE, hs, cleanupEntries, purgeTransientSpecE, hmem,
            cleanup_purge rest hrest]

/-- Looking up a freshly appended directory entry by its exact name succeeds
when no other child of that name remains in the store. -/
theorem lookupEntry_append : ∀ (s : Store) (name : String) (node : FsNode),
    hasChild s name = false →
    lookupEntry (appendEntry s name node) name = some node
  | FsEntries.nil, name, node, _ => by simp [appendEntry, lookupEntry]
  | FsEntries.cons n c rest, name, node, h => by
      have hne : ¬(n = name) := by
        simp [hasChild] at h
        exact h.1
      have hrest : hasChild rest name = false := by
        simp [hasChild] at h
        exact h.2
      simp [appendEntry, lookupEntry, hne, lookupEntry_append rest name node hrest]

/-- A freshly appended profile directory is found by `getProfileByEmail`
under its exact name when no other child of that name remains and the name
is not the reserved pending name. -/
theorem getProfileByEmail_append : ∀ (s : Store) (email : String) (node : FsNode),
    hasChild s email = false → isDirNode node = true →
    ¬(email = PENDING_SESSION_NAME) →
    getProfileByEmail email (appendEntry s email node)
      = some { email := email, profilePath := email }
  | FsEntries.nil, email, node, _, hdir, hpend => by
      simp [appendEntry, getProfileByEmail, listProfiles, hdir, hpend]
  | FsEntries.cons n c rest, email, node, h, hdir, hpend => by
      have hne : ¬(n = email) := by
        simp [hasChild] at h
        exact h.1
      have hrest : hasChild rest email = false := by
        simp [hasChild] at h
        exact h.2
      have ih := getProfileByEmail_append rest email node hrest hdir hpend
      by_cases hlist : (isDirNode c && !(n = PENDING_SESSION_NAME : Bool)) = true
      · simp [appendEntry, getProfileByEmail, listProfiles, hlist, hne] at ih ⊢
        exact ih
      · simp [appendEntry, getProfileByEmail, listProfiles, hlist] at ih ⊢
        exact ih

/-- C7: on every directory tree containing an unreadable subdirectory,
`getProfileSize` does not raise (it is total by the per-directory try/catch)
and returns the summed byte size of all entries reachable through readable
directories, skipping exactly the unreadable subtrees. -/
theorem getProfileSize_tolerates_unreadable (t : FsNode)
    (h : hasUnreadableN t = true) :
    getProfileSize t = readableFilesTotalN t := by
  have := calcNode_eq 0 t
  simpa [getProfileSize] using this

/-- Witness for C7 at a concrete tree with one unreadable subdirectory:
the 3-byte readable file is counted, the 2-byte file behind the unreadable
directory is skipped. -/
theorem getProfileSize_tolerates_unreadable_witness :
    hasUnreadableN treeUnreadable = true ∧
    getProfileSize treeUnreadable = readableFilesTotalN treeUnreadable ∧
    getProfileSize treeUnreadable = 3 :=
  ⟨by decide, getProfileSize_tolerates_unreadable treeUnreadable (by decide), by decide⟩

/-- C10: `getProfileSize` counts regular files only — symbolic-link entries
are neither counted nor followed, so any two trees with the same
symlink-erased skeleton report the same size. -/
theorem getProfileSize_symlink_invariant (t1 t2 : FsNode)
    (h : stripSymlinksN t1 = stripSymlinksN t2) :
    getProfileSize t1 = getProfileSize t2 := by
  have e1 : getProfileSize t1 = readableFilesTotalN (stripSymlinksN t1) := by
    have := calcNode_eq 0 t1
    simp [getProfileSize, this, readableTotal_strip t1]
  have e2 : getProfileSize t2 = readableFilesTotalN (stripSymlinksN t2) := by
    have := calcNode_eq 0 t2
    simp [getProfileSize, this, readableTotal_strip t2]
  rw [e1, e2, h]

/-- Witness for C10: a tree with a symlink entry and the same tree without
it report the same size. -/
theorem getProfileSize_symlink_invariant_witness :
    stripSymlinksN treeWithLink = stripSymlinksN treeNoLink ∧
    getProfileSize treeWithLink = getProfileSize treeNoLink :=
  ⟨by decide, getProfileSize_symlink_invariant treeWithLink treeNoLink (by decide)⟩

/-- C8: `readAuthSessions` never raises — its whole body is inside a
try/catch returning the empty list — so a missing or locked (unopenable)
state store yields the empty session list. -/
theorem readAuthSessions_unavailable (db : DbOpen)
    (h : db = DbOpen.missing ∨ db = DbOpen.locked) :
    readAuthSessions db = [] := by
  rcases h with h | h <;> rw [h] <;> rfl

/-- Witness for C8 at the missing-store state. -/
theorem readAuthSessions_unavailable_witness :
    readAuthSessions DbOpen.missing = [] :=
  readAuthSessions_unavailable DbOpen.missing (Or.inl rfl)

/-- C9: `isAntigravityRunning` never throws — it always reports a boolean —
and when process enumeration fails (command error, permission denied, tool
missing) it reports false on every platform. -/
theorem isAntigravityRunning_failure_false (os : OsPlatform) (ex : ExecOracle)
    (h : ∀ c, ex c = Except.error ()) :
    isAntigravityRunning os ex = false := by
  cases os <;> simp [isAntigravityRunning, h]

/-- Witness for C9: the everywhere-failing enumeration oracle yields false
on each platform. -/
theorem isAntigravityRunning_failure_false_witness :
    isAntigravityRunning OsPlatform.darwin (fun _ => Except.error ()) = false ∧
    isAntigravityRunning OsPlatform.win32 (fun _ => Except.error ()) = false :=
  ⟨isAntigravityRunning_failure_false OsPlatform.darwin _ (fun _ => rfl),
   isAntigravityRunning_failure_false OsPlatform.win32 _ (fun _ => rfl)⟩

/-- C6: `getActiveProfilePath` returns a target exactly when the pointer
location holds a genuine symbolic link whose target still exists; with no
entry, a regular file or directory, or a dangling link it returns none, and
it never raises (the source's try/catch is modelled by totality). -/
theorem getActiveProfilePath_iff (w : SymWorld) (t : String) :
    getActiveProfilePath w = some t ↔
      (w.entry = PtrEntry.symlink t ∧ w.pathExists t = true) := by
  cases hw : w.entry with
  | empty => simp [getActiveProfilePath, existsSyncPtr, hw]
  | file => simp [getActiveProfilePath, existsSyncPtr, hw]
  | dir => simp [getActiveProfilePath, existsSyncPtr, hw]
  | symlink u =>
      by_cases hu : w.pathExists u = true
      · constructor
        · intro h
          simp [getActiveProfilePath, existsSyncPtr, hw, hu] at h
          subst h
          exact ⟨rfl, hu⟩
        · rintro ⟨h1, h2⟩
          have : u = t := by
            cases h1
            rfl
          subst this
          simp [getActiveProfilePath, existsSyncPtr, hw, hu]
      · constructor
        · intro h
          simp [getActiveProfilePath, existsSyncPtr, hw, hu] at h
        · rintro ⟨h1, h2⟩
          have : u = t := by
            cases h1
            rfl
          subst this
          exact absurd h2 hu

/-- Running `setActiveProfile` a second time with the same path leaves the
pointer state exactly where the first call left it. -/
theorem setActiveProfile_idem (p : String) (w : SymWorld) :
    (setActiveProfile p ((setActiveProfile p w).1)).1 = (setActiveProfile p w).1 := by
  cases hw : w.entry with
  | empty =>
      by_cases hp : w.pathExists p = true
      · simp [setActiveProfile, existsSyncPtr, hw, hp]
      · simp [setActiveProfile, existsSyncPtr, hw, hp]
  | file =>
      by_cases hp : w.pathExists p = true
      · simp [setActiveProfile, existsSyncPtr, hw, hp]
      · simp [setActiveProfile, existsSyncPtr, hw, hp]
  | dir =>
      by_cases hp : w.pathExists p = true
      · simp [setActiveProfile, existsSyncPtr, hw, hp]
      · simp [setActiveProfile, existsSyncPtr, hw, hp]
  | symlink u =>
      by_cases hu : w.pathExists u = true
      · by_cases hp : w.pathExists p = true
        · simp [setActiveProfile, existsSyncPtr, hw, hu, hp]
        · simp [setActiveProfile, existsSyncPtr, hw, hu, hp]
      · by_cases hp : w.pathExists p = true
        · simp [setActiveProfile, existsSyncPtr, hw, hu, hp]
        · simp [setActiveProfile, existsSyncPtr, hw, hu, hp]

/-- C4 (amended): for an existing profile path and any prior pointer state
other than a dangling symlink, `setActiveProfile` then `getActiveProfilePath`
round-trips; and for every path and prior state whatsoever, calling
`setActiveProfile` twice leaves `getActiveProfilePath` exactly as after the
first call. -/
theorem setActive_roundtrip (p : String) (w : SymWorld)
    (hp : w.pathExists p = true)
    (hnd : ∀ t, w.entry = PtrEntry.symlink t → w.pathExists t = true) :
    getActiveProfilePath ((setActiveProfile p w).1) = some p ∧
    ∀ (w2 : SymWorld) (q : String),
      getActiveProfilePath ((setActiveProfile q ((setActiveProfile q w2).1)).1)
        = getActiveProfilePath ((setActiveProfile q w2).1) := by
  constructor
  · cases hw : w.entry with
    | empty => simp [setActiveProfile, existsSyncPtr, getActiveProfilePath, hw, hp]
    | file => simp [setActiveProfile, existsSyncPtr, getActiveProfilePath, hw, hp]
    | dir => simp [setActiveProfile, existsSyncPtr, getActiveProfilePath, hw, hp]
    | symlink u =>
        have hu : w.pathExists u = true := hnd u hw
        simp [setActiveProfile, existsSyncPtr, getActiveProfilePath, hw, hu, hp]
  · intro w2 q
    rw [setActiveProfile_idem q w2]

/-- Witness for C4: starting from a vacant pointer location where every
profile path exists, the round trip returns the chosen path. -/
theorem setActive_roundtrip_witness :
    getActiveProfilePath ((setActiveProfile "P" symWorldVacant).1) = some "P" :=
  (setActive_roundtrip "P" symWorldVacant rfl
    (fun t h => PtrEntry.noConfusion h)).1

/-- Counterexample to C4 as stated: with a dangling symlink previously at the
pointer location and an existing profile path "P", `setActiveProfile("P")`
fails (reporting false) and the subsequent `getActiveProfilePath()` returns
none, not "P". -/
theorem setActive_dangling_cex :
    symWorldDangling.pathExists "P" = true ∧
    (setActiveProfile "P" symWorldDangling).2 = false ∧
    getActiveProfilePath ((setActiveProfile "P" symWorldDangling).1) = none := by
  refine ⟨by decide, by decide, by decide⟩

/-- The spec's detection predicate coincides with the source's
`isNewLogin` test. -/
theorem specQualifies_eq_isNewLogin (baseline : Option AuthSessionData)
    (s : AuthSessionData) : specQualifies baseline s = isNewLogin baseline s := by
  cases baseline <;> rfl

/-- C5: `watchForAuth` resolves with the first observation in which the
store reports a session whose identity differs from the baseline (or any
session when no baseline existed); when no observation before the timeout
qualifies it rejects with the timeout error; and it never resolves with a
session carrying the baseline identity. -/
theorem watchForAuth_spec (baseline : Option AuthSessionData)
    (obs : List (Bool × Option AuthSessionData)) :
    watchForAuth baseline obs =
      (match specFirstDetection baseline obs with
       | some s => Except.ok s
       | none => Except.error "Authentication timeout - no login detected") ∧
    (∀ b s, baseline = some b → watchForAuth baseline obs = Except.ok s →
       ¬(s.email = b.email)) := by
  induction obs with
  | nil =>
      constructor
      · rfl
      · intro b s hb h
        simp [watchForAuth] at h
  | cons hd tl ih =>
      obtain ⟨dbE, sess⟩ := hd
      cases dbE with
      | false =>
          constructor
          · simpa [watchForAuth, checkForAuth, specFirstDetection] using ih.1
          · intro b s hb h
            rw [show watchForAuth baseline ((false, sess) :: tl)
                  = watchForAuth baseline tl from rfl] at h
            exact ih.2 b s hb h
      | true =>
          cases sess with
          | none =>
              constructor
              · simpa [watchForAuth, checkForAuth, specFirstDetection] using ih.1
              · intro b s hb h
                rw [show watchForAuth baseline ((true, none) :: tl)
                      = watchForAuth baseline tl from rfl] at h
                exact ih.2 b s hb h
          | some s0 =>
              by_cases hq : isNewLogin baseline s0 = true
              · constructor
                · simp [watchForAuth, checkForAuth, hq, specFirstDetection,
                    specQualifies_eq_isNewLogin]
                · intro b s hb h
                  have hs : s0 = s := by
                    simp [watchForAuth, checkForAuth, hq] at h
                    exact h
                  subst hs
                  subst hb
                  simpa [isNewLogin] using hq
              · constructor
                · have h1 := ih.1
                  simpa [watchForAuth, checkForAuth, hq, specFirstDetection,
                    specQualifies_eq_isNewLogin] using h1
                · intro b s hb h
                  have : watchForAuth baseline tl = Except.ok s := by
                    simpa [watchForAuth, checkForAuth, hq] using h
                  exact ih.2 b s hb this

/-- Witness for C5: with baseline session `sessA`, an observation stream
that first repeats the baseline and then shows `sessB` resolves with
`sessB`, whose identity differs from the baseline's. -/
theorem watchForAuth_spec_witness :
    watchForAuth (some sessA) [(true, some sessA), (true, some sessB)]
      = Except.ok sessB ∧
    ¬(sessB.email = sessA.email) :=
  ⟨rfl,
   (watchForAuth_spec (some sessA) [(true, some sessA), (true, some sessB)]).2
     sessA sessB rfl rfl⟩

/-- C2 (amended): for an identity left unchanged by sanitization and
distinct from the reserved pending name, capturing a readable source
directory whose transient-named top-level entries are directories (and with
no stale dangling entry blocking the profile slot) succeeds, and looking the
identity up afterwards returns a Profile whose stored tree is the source
tree minus the purged transient top-level subdirectories and minus every
socket/FIFO/device entry. -/
theorem capture_then_lookup (email : String) (store : Store) (ch : FsEntries)
    (hsan : sanitizeEmail email = email)
    (hpend : ¬(email = PENDING_SESSION_NAME))
    (hread : allReadableN (FsNode.dir true ch) = true)
    (htrans : transientTopOk ch = true)
    (hconf : hasChild (rmIfExists store email) email = false) :
    copyDefaultProfileToStorage email store (FsNode.dir true ch)
      = Except.ok (appendEntry (rmIfExists store email) email
          (purgeTransientSpec (stripSpecialsN (FsNode.dir true ch)))) ∧
    getProfileByEmail email
        (appendEntry (rmIfExists store email) email
          (purgeTransientSpec (stripSpecialsN (FsNode.dir true ch))))
      = some { email := email, profilePath := email } ∧
    lookupEntry
        (appendEntry (rmIfExists store email) email
          (purgeTransientSpec (stripSpecialsN (FsNode.dir true ch)))) email
      = some (purgeTransientSpec (stripSpecialsN (FsNode.dir true ch))) := by
  have hcp : cpNode (FsNode.dir true ch) = Except.ok (stripSpecialsN (FsNode.dir true ch)) :=
    cpNode_ok (FsNode.dir true ch) hread
  have hclean : cleanupProfile (stripSpecialsN (FsNode.dir true ch))
      = purgeTransientSpec (stripSpecialsN (FsNode.dir true ch)) := by
    simp [stripSpecialsN, cleanupProfile, purgeTransientSpec, cleanup_purge ch htrans]
  refine ⟨?_, ?_, ?_⟩
  · simp [copyDefaultProfileToStorage, hsan, hconf, hcp, hclean]
  · exact getProfileByEmail_append (rmIfExists store email) email
      (purgeTransientSpec (stripSpecialsN (FsNode.dir true ch))) hconf
      (by simp [stripSpecialsN, purgeTransientSpec, isDirNode]) hpend
  · exact lookupEntry_append (rmIfExists store email) email
      (purgeTransientSpec (stripSpecialsN (FsNode.dir true ch))) hconf

/-- Witness for C2 at a concrete safe identity and empty store/tree. -/
theorem capture_then_lookup_witness :
    copyDefaultProfileToStorage "alice@gmail.com" FsEntries.nil
        (FsNode.dir true FsEntries.nil)
      = Except.ok (appendEntry (rmIfExists FsEntries.nil "alice@gmail.com")
          "alice@gmail.com"
          (purgeTransientSpec (stripSpecialsN (FsNode.dir true FsEntries.nil)))) ∧
    getProfileByEmail "alice@gmail.com"
        (appendEntry (rmIfExists FsEntries.nil "alice@gmail.com") "alice@gmail.com"
          (purgeTransientSpec (stripSpecialsN (FsNode.dir true FsEntries.nil))))
      = some { email := "alice@gmail.com", profilePath := "alice@gmail.com" } ∧
    lookupEntry
        (appendEntry (rmIfExists FsEntries.nil "alice@gmail.com") "alice@gmail.com"
          (purgeTransientSpec (stripSpecialsN (FsNode.dir true FsEntries.nil))))
        "alice@gmail.com"
      = some (purgeTransientSpec (stripSpecialsN (FsNode.dir true FsEntries.nil))) :=
  capture_then_lookup "alice@gmail.com" FsEntries.nil FsEntries.nil
    (by decide) (by decide) (by decide) (by decide) (by decide)

/-- Counterexample to C2 as stated: for the identity "A B" (containing a
space), capture succeeds but stores the profile under the sanitized name
"A_B", so the subsequent lookup of "A B" returns null instead of a
Profile. -/
theorem capture_lookup_cex :
    copyDefaultProfileToStorage "A B" FsEntries.nil (FsNode.dir true FsEntries.nil)
      = Except.ok (FsEntries.cons "A_B" (FsNode.dir true FsEntries.nil) FsEntries.nil) ∧
    getProfileByEmail "A B"
        (FsEntries.cons "A_B" (FsNode.dir true FsEntries.nil) FsEntries.nil)
      = none :=
  ⟨rfl, by decide⟩

/-- Every event recorded by the quit-and-reverify loop is a liveness
check. -/
theorem quitLoop_passive (running : Nat → Bool) :
    ∀ (fuel i : Nat), ((quitLoop running i fuel).2).all isPassiveEvent = true := by
  intro fuel
  induction fuel with
  | zero => intro i; rfl
  | succ k ih =>
      intro i
      cases hri : running i with
      | true => simp [quitLoop, hri, isPassiveEvent, ih (i + 1)]
      | false => simp [quitLoop, hri, isPassiveEvent]

/-- Every event recorded by the process-guard section is passive: it never
updates the pointer nor restores the live directory. -/
theorem guard_passive (o : SwitchOracle) :
    ((guardStep o).2).all isPassiveEvent = true := by
  cases hr0 : o.running 0 with
  | true =>
      cases hc : o.confirmClose with
      | true =>
          simp [guardStep, hr0, hc, isPassiveEvent, List.all_append,
            quitLoop_passive o.running maxAttempts 1]
      | false => simp [guardStep, hr0, hc, isPassiveEvent]
  | false => simp [guardStep, hr0, isPassiveEvent]

/-- The restore-after-set scan ignores a passive prefix. -/
theorem passive_restoreAux : ∀ (l1 : List SwitchEvent),
    l1.all isPassiveEvent = true →
    ∀ (s : List String) (l2 : List SwitchEvent),
      restoreAfterSetAux s (l1 ++ l2) = restoreAfterSetAux s l2
  | [], _, _, _ => rfl
  | e :: rest, h, s, l2 => by
      have he : isPassiveEvent e = true := by
        simp only [List.all_cons, Bool.and_eq_true] at h
        exact h.1
      have hrest : rest.all isPassiveEvent = true := by
        simp only [List.all_cons, Bool.and_eq_true] at h
        exact h.2
      cases e with
      | checkRunning b =>
          simpa [restoreAfterSetAux] using passive_restoreAux rest hrest s l2
      | quitCmd b =>
          simpa [restoreAfterSetAux] using passive_restoreAux rest hrest s l2
      | setActivePtr p ok => simp [isPassiveEvent] at he
      | restoreCall p out => simp [isPassiveEvent] at he

/-- The restore-after-set scan accepts any all-passive trace. -/
theorem passive_restoreAux_whole (l : List SwitchEvent)
    (h : l.all isPassiveEvent = true) (s : List String) :
    restoreAfterSetAux s l = true := by
  have := passive_restoreAux l h s []
  simpa using this

/-- C1 (amended): in every execution of the switch flow, the live-directory
restore happens only after the ActivePointer has already been updated to the
selected path — `setActiveProfile` precedes `restoreProfileToDefault`, never
the other way round. -/
theorem pointer_set_before_restore (o : SwitchOracle) (w : SwitchWorld)
    (path : String) :
    restoreOnlyAfterSet ((runSwitchTail o w path).2.2) = true := by
  have hpassAll : ((guardStep o).2).all isPassiveEvent = true := guard_passive o
  rcases hg : guardStep o with ⟨gr, evs⟩
  rw [hg] at hpassAll
  cases gr with
  | proceed =>
      have : (runSwitchTail o w path).2.2 = evs ++ (switchAfterGuard o w path).2.2 := by
        simp [runSwitchTail, hg]
      rw [this, restoreOnlyAfterSet, passive_restoreAux evs hpassAll [] _]
      cases hs : o.setActiveOk with
      | true =>
          cases ho : o.restoreOut <;>
            simp [switchAfterGuard, hs, ho, restoreAfterSetAux]
      | false => simp [switchAfterGuard, hs, restoreAfterSetAux]
  | cancelled =>
      have : (runSwitchTail o w path).2.2 = evs := by
        simp [runSwitchTail, hg]
      rw [this, restoreOnlyAfterSet, passive_restoreAux_whole evs hpassAll []]
  | stillBusy =>
      have : (runSwitchTail o w path).2.2 = evs := by
        simp [runSwitchTail, hg]
      rw [this, restoreOnlyAfterSet, passive_restoreAux_whole evs hpassAll []]

/-- Counterexample to C1 as stated: with the application not running and
every step succeeding, the switch flow's trace updates the ActivePointer
first and only then restores the live directory, so the
pointer-only-after-successful-restore ordering fails. -/
theorem pointer_before_restore_cex :
    pointerSetOnlyAfterRestore
      ((runSwitchTail oracleNotRunning switchWorld0 "alice").2.2) = false := by
  decide

/-- With the application reported running at every check, the
quit-and-reverify loop exhausts its attempts, consuming one liveness check
per attempt. -/
theorem quitLoop_allTrue (running : Nat → Bool) (hrun : ∀ n, running n = true) :
    ∀ (fuel i : Nat), quitLoop running i fuel
      = (i + fuel, List.replicate fuel (SwitchEvent.checkRunning true)) := by
  intro fuel
  induction fuel with
  | zero => intro i; simp [quitLoop]
  | succ k ih =>
      intro i
      have := ih (i + 1)
      simp [quitLoop, hrun i, this, List.replicate_succ]
      omega

/-- Counting the liveness checks in a replicated check list. -/
theorem countChecks_replicate (n : Nat) (b : Bool) :
    countChecks (List.replicate n (SwitchEvent.checkRunning b)) = n := by
  induction n with
  | zero => rfl
  | succ k ih =>
      simp only [countChecks, List.replicate_succ, List.countP_cons] at ih ⊢
      simp [ih]

/-- C3: when the application reports running at every liveness check and the
user confirms closing it, the switch performs its initial check, the full
quit-and-reverify loop of `maxAttempts` re-checks, and the final re-check,
then terminates still-running (the resource-busy failure path) with the
pointer/live state exactly as it started. -/
theorem switch_busy_unchanged (o : SwitchOracle) (w : SwitchWorld) (path : String)
    (hrun : ∀ n, o.running n = true) (hconf : o.confirmClose = true) :
    (runSwitchTail o w path).1 = SwitchResult.stillRunningExit ∧
    (runSwitchTail o w path).2.1 = w ∧
    countChecks ((runSwitchTail o w path).2.2) = maxAttempts + 2 := by
  have hlp := quitLoop_allTrue o.running hrun maxAttempts 1
  have hg : guardStep o = (GuardResult.stillBusy,
      SwitchEvent.checkRunning true :: SwitchEvent.quitCmd o.quitOk ::
        (List.replicate maxAttempts (SwitchEvent.checkRunning true)
          ++ [SwitchEvent.checkRunning true])) := by
    simp [guardStep, hconf, hlp, hrun]
  refine ⟨?_, ?_, ?_⟩
  · simp [runSwitchTail, hg]
  · simp [runSwitchTail, hg]
  · simp [runSwitchTail, hg, countChecks, List.countP_cons, List.countP_append]
    have := countChecks_replicate maxAttempts true
    simp [countChecks] at this
    simp [this]

/-- Witness for C3: the always-running oracle with a confirming user leaves
the initial state untouched, exits still-running, and performs 32 liveness
checks (initial + 30 loop re-checks + final). -/
theorem switch_busy_unchanged_witness :
    (runSwitchTail oracleAllRunning switchWorld0 "bob").1
      = SwitchResult.stillRunningExit ∧
    (runSwitchTail oracleAllRunning switchWorld0 "bob").2.1 = switchWorld0 ∧
    countChecks ((runSwitchTail oracleAllRunning switchWorld0 "bob").2.2)
      = maxAttempts + 2 :=
  switch_busy_unchanged oracleAllRunning switchWorld0 "bob"
    (fun _ => rfl) rfl
